import Mathlib

/-!
Verification of `morpho_typing/types.py`: a typed parameter schema with a
record validator.  Python integers are modelled by `ℤ`, Python floats by `ℚ`
(every IEEE float value is a rational), strings by `String`.  The pydantic
machinery used by the source (lax coercion of raw values, `ge`/`le` range
constraints, `min_length`/`max_length` list constraints) is modelled
explicitly; each such definition notes what library behaviour it captures.
-/

namespace MorphoTyping

/-- The kind of native python value a field's values are represented as. -/
inductive NativeKind where
  | intK
  | floatK
  | strK
deriving DecidableEq, Repr

/-- `ArcType` from the source: the closed enumeration of atomic types. -/
inductive ArcType where
  | INT
  | DOUBLE
  | FLOAT
  | STRING
deriving DecidableEq, Repr

/-- `ArcType.native_type`: the mapping from an atomic type to its native
python representation kind (`int`, `float`, `float`, `str`). -/
def ArcType.native_type : ArcType → NativeKind
  | .INT => .intK
  | .DOUBLE => .floatK
  | .FLOAT => .floatK
  | .STRING => .strK

/-- A raw record value: python `int | str | float`. -/
inductive Value where
  | vInt (n : ℤ)
  | vFloat (q : ℚ)
  | vStr (s : String)
deriving DecidableEq, Repr

/-- `Field` from the source: one named, typed, unit-labelled, ranged
parameter.  `field_range` is kept as a list of numbers, as in the source. -/
structure Field where
  field_name : String
  field_type : ArcType
  field_unit : String
  field_range : List ℚ
deriving DecidableEq, Repr

/-- The lower bound `field_range[0]` of a field. -/
def Field.low (f : Field) : ℚ := f.field_range.getD 0 0

/-- The upper bound `field_range[1]` of a field. -/
def Field.high (f : Field) : ℚ := f.field_range.getD 1 0

/-- Errors raised while constructing a `Field`: the pydantic
`min_length`/`max_length` violation on `field_range`, and the `ValueError`
raised by `range_validator` (which interpolates both bounds into its
message, so the error carries both values). -/
inductive FieldError where
  | badLength (given : ℕ)
  | invalidRange (low high : ℚ)
deriving DecidableEq, Repr

/-- Construction of a `Field`.  pydantic first checks the declared
`min_length=2, max_length=2` constraint on `field_range`; only when that
passes does the after-mode `range_validator` run, raising when
`range[0] >= range[1]`. -/
def mkField (name : String) (ty : ArcType) (unit : String) (range : List ℚ) :
    Except FieldError Field :=
  if range.length ≠ 2 then
    .error (.badLength range.length)
  else if range.getD 0 0 ≥ range.getD 1 0 then
    .error (.invalidRange (range.getD 0 0) (range.getD 1 0))
  else
    .ok ⟨name, ty, unit, range⟩

/-- The numeric value of a decimal digit character. -/
def digitVal (c : Char) : Option ℕ :=
  if c.isDigit then some (c.toNat - Char.toNat '0') else none

/-- Parse a non-empty run of decimal digits as a natural number. -/
def parseNatDigits (cs : List Char) : Option ℕ :=
  if cs.isEmpty then none
  else cs.foldl (fun acc c => acc.bind fun n => (digitVal c).map fun d => n * 10 + d) (some 0)

/-- Models pydantic lax `str` → `int` coercion: an optional minus sign
followed by decimal digits. -/
def str_as_int (s : String) : Option ℤ :=
  match s.data with
  | '-' :: rest => (parseNatDigits rest).map fun n => -(n : ℤ)
  | cs => (parseNatDigits cs).map fun n => (n : ℤ)

/-- Parse `digits` or `digits.digits` as a non-negative rational. -/
def parseDecimal (cs : List Char) : Option ℚ :=
  let intPart := cs.takeWhile (fun c => c ≠ '.')
  let rest := cs.dropWhile (fun c => c ≠ '.')
  match rest with
  | [] => (parseNatDigits intPart).map fun n => (n : ℚ)
  | _ :: fracPart =>
      match parseNatDigits intPart, parseNatDigits fracPart with
      | some n, some m =>
          some (mkRat (n * 10 ^ fracPart.length + m) (10 ^ fracPart.length))
      | _, _ => none

/-- Models pydantic lax `str` → `float` coercion: an optional minus sign
followed by a decimal numeral. -/
def str_as_float (s : String) : Option ℚ :=
  match s.data with
  | '-' :: rest => (parseDecimal rest).map fun q => -q
  | cs => parseDecimal cs

/-- Models pydantic lax coercion of a raw value to python `int`: ints pass
through, floats are accepted only when integral, strings are parsed. -/
def coerce_int : Value → Except String ℤ
  | .vInt n => .ok n
  | .vFloat q =>
      if q.den = 1 then .ok q.num
      else .error "Input should be a valid integer, got a number with a fractional part"
  | .vStr s =>
      match str_as_int s with
      | some n => .ok n
      | none => .error "Input should be a valid integer, unable to parse string as an integer"

/-- Models pydantic lax coercion of a raw value to python `float`: ints and
floats pass through, strings are parsed. -/
def coerce_float : Value → Except String ℚ
  | .vInt n => .ok (n : ℚ)
  | .vFloat q => .ok q
  | .vStr s =>
      match str_as_float s with
      | some q => .ok q
      | none => .error "Input should be a valid number, unable to parse string as a number"

/-- The message pydantic reports for a value below the `ge` bound. -/
def ge_message (b : ℚ) : String := s!"Input should be greater than or equal to {b}"

/-- The message pydantic reports for a value above the `le` bound. -/
def le_message (b : ℚ) : String := s!"Input should be less than or equal to {b}"

/-- The `ge`/`le` range constraint attached to each numeric parameter
model: accepts exactly the values in the inclusive range `[low, high]`. -/
def range_check (c low high : ℚ) : Option String :=
  if c < low then some (ge_message low)
  else if high < c then some (le_message high)
  else none

/-- The name pydantic gives the per-field parameter model created by
`parameter_models`: `f"parameter_\x7bfield.field_name\x7d"`. -/
def model_name (f : Field) : String := "parameter_" ++ f.field_name

/-- The rule compiled for one field by `parameter_models`, applied to one
raw value: coerce the value to the field's native representation, then (for
numeric kinds) check the inclusive `ge`/`le` range.  Returns `none` when
the value validates and the first pydantic error message otherwise.  For a
`str`-typed parameter pydantic rejects non-string input (lax mode does not
stringify numbers) and — per the observed behaviour recorded in the spec —
does not apply the numeric `ge`/`le` bounds to string values. -/
def validate_value (f : Field) (v : Value) : Option String :=
  match f.field_type.native_type with
  | .intK =>
      match coerce_int v with
      | .error msg => some msg
      | .ok n => range_check (n : ℚ) f.low f.high
  | .floatK =>
      match coerce_float v with
      | .error msg => some msg
      | .ok q => range_check q f.low f.high
  | .strK =>
      match v with
      | .vStr _ => none
      | _ => some "Input should be a valid string"

/-- `ArcSchema` from the source: an ordered list of fields. -/
structure ArcSchema where
  fields : List Field
deriving DecidableEq, Repr

/-- `len(self.parameter_models)`: one parameter model per field. -/
def num_parameters (s : ArcSchema) : ℕ := s.fields.length

/-- One iteration of the validation loop: try the field's rule on the
value and append `(message, model_name)` to the error list on failure. -/
def validation_step (acc : List (String × String)) (p : Value × Field) :
    List (String × String) :=
  match validate_value p.2 p.1 with
  | some msg => acc ++ [(msg, model_name p.2)]
  | none => acc

/-- `ArcSchema.validate_record` from the source: raises (modelled as
`Except.error` carrying the message with the expected parameter count) when
the record length differs from the number of parameter models; otherwise
runs every field's rule over the zipped record, collecting errors, and
returns `(False, errors)` when any were collected and `(True, [])`
otherwise. -/
def validate_record (s : ArcSchema) (record : List Value) :
    Except String (Bool × List (String × String)) :=
  if record.length ≠ num_parameters s then
    .error ("Length of record does not match number of parameters " ++
      toString (num_parameters s))
  else
    let errors := (record.zip s.fields).foldl validation_step []
    if errors.length > 0 then .ok (false, errors) else .ok (true, [])

/-- Specification view of the collected errors: one `(message, model name)`
entry per failing `(value, field)` pair, in order. -/
def pair_errors (l : List (Value × Field)) : List (String × String) :=
  l.filterMap fun p => (validate_value p.2 p.1).map fun msg => (msg, model_name p.2)

/-- Specification view of the errors `validate_record` collects. -/
def record_errors (s : ArcSchema) (record : List Value) : List (String × String) :=
  pair_errors (record.zip s.fields)

/-- The coerced numeric value of a raw value at a numeric field (the value
the compiled rule compares against the range). -/
def coerced_value (f : Field) (v : Value) : Except String ℚ :=
  match f.field_type.native_type with
  | .intK => (coerce_int v).map fun n => (n : ℚ)
  | .floatK => coerce_float v
  | .strK => .error "Input should be a valid string"

/-- The STEP field of the spec's demonstration schema: Int, range (0, 10). -/
def stepField : Field := ⟨"STEP", .INT, "", [0, 10]⟩

/-- The HEIGHT field of the spec's demonstration schema: Double, range (0, 100). -/
def heightField : Field := ⟨"HEIGHT", .DOUBLE, "m", [0, 100]⟩

/-- The demonstration schema of the spec: STEP (Int, range (0,10)) and
HEIGHT (Double, range (0,100)). -/
def demoSchema : ArcSchema := ⟨[stepField, heightField]⟩

/-- The validation loop starting from any accumulator appends exactly the
errors of the remaining pairs. -/
theorem foldl_validation_step (l : List (Value × Field)) (acc : List (String × String)) :
    l.foldl validation_step acc = acc ++ pair_errors l := by
  induction l generalizing acc with
  | nil => simp [pair_errors]
  | cons p rest ih =>
      cases h : validate_value p.2 p.1 with
      | none =>
          simp [List.foldl_cons, validation_step, h, ih, pair_errors, List.filterMap_cons]
      | some msg =>
          simp [List.foldl_cons, validation_step, h, ih, pair_errors, List.filterMap_cons]

/-- On a record of matching length, `validate_record` returns the collected
error list together with the emptiness flag. -/
theorem validate_record_eq (s : ArcSchema) (record : List Value)
    (h : record.length = s.fields.length) :
    validate_record s record =
      .ok ((record_errors s record).isEmpty, record_errors s record) := by
  have hlen : ¬ record.length ≠ num_parameters s := by simp [num_parameters, h]
  simp only [validate_record, if_neg hlen, foldl_validation_step, List.nil_append]
  rcases hE : pair_errors (record.zip s.fields) with _ | ⟨e, es⟩ <;>
    simp [record_errors, hE]

/-- `validate_record` on a one-field schema reduces to the field's rule. -/
theorem validate_record_singleton (f : Field) (v : Value) :
    validate_record ⟨[f]⟩ [v] =
      match validate_value f v with
      | none => Except.ok (true, [])
      | some msg => Except.ok (false, [(msg, model_name f)]) := by
  have h := validate_record_eq ⟨[f]⟩ [v] rfl
  cases hvv : validate_value f v <;>
    simp [record_errors, pair_errors, hvv] at h <;> simp [h, hvv]

/-- A type maps to the string representation kind exactly when it is `STRING`. -/
theorem native_type_strK_iff (t : ArcType) : t.native_type = .strK ↔ t = .STRING := by
  cases t <;> simp [ArcType.native_type]

/-- When a numeric field's coercion succeeds, the compiled rule is exactly
the inclusive range check on the coerced value. -/
theorem validate_value_eq_range_check (f : Field) (v : Value) (c : ℚ)
    (hty : f.field_type ≠ .STRING) (hc : coerced_value f v = .ok c) :
    validate_value f v = range_check c f.low f.high := by
  unfold coerced_value at hc
  unfold validate_value
  cases hnk : f.field_type.native_type with
  | strK => exact absurd ((native_type_strK_iff f.field_type).mp hnk) hty
  | intK =>
      rw [hnk] at hc
      cases hci : coerce_int v with
      | error m => rw [hci] at hc; simp [Except.map] at hc
      | ok n =>
          rw [hci] at hc
          simp [Except.map] at hc
          simp [hc]
  | floatK =>
      rw [hnk] at hc
      cases hcf : coerce_float v with
      | error m => rw [hcf] at hc; simp [Except.map] at hc
      | ok q =>
          rw [hcf] at hc
          simp [Except.map] at hc
          simp [hc]

/-- When a numeric field's coercion fails, the compiled rule reports the
coercion error message. -/
theorem validate_value_of_coerce_error (f : Field) (v : Value) (m : String)
    (hty : f.field_type ≠ .STRING) (hc : coerced_value f v = .error m) :
    validate_value f v = some m := by
  unfold coerced_value at hc
  unfold validate_value
  cases hnk : f.field_type.native_type with
  | strK => exact absurd ((native_type_strK_iff f.field_type).mp hnk) hty
  | intK =>
      rw [hnk] at hc
      cases hci : coerce_int v with
      | error m2 =>
          rw [hci] at hc
          simp [Except.map] at hc
          simp [hc]
      | ok n => rw [hci] at hc; simp [Except.map] at hc
  | floatK =>
      rw [hnk] at hc
      cases hcf : coerce_float v with
      | error m2 =>
          rw [hcf] at hc
          simp [Except.map] at hc
          simp [hc]
      | ok q => rw [hcf] at hc; simp [Except.map] at hc

/-- The identifiers in the collected errors are the model names of the
failing fields, in order. -/
theorem map_snd_pair_errors (l : List (Value × Field)) :
    (pair_errors l).map Prod.snd =
      (l.filter fun p => (validate_value p.2 p.1).isSome).map fun p => model_name p.2 := by
  induction l with
  | nil => rfl
  | cons p rest ih =>
      cases h : validate_value p.2 p.1 <;>
        simpa [pair_errors, List.filterMap_cons, h, List.filter_cons] using ih

/-- C2: on a record whose length differs from the number of schema fields,
`validate_record` fails with the length-mismatch error carrying the expected
field count, and produces no per-field error list. -/
theorem validate_record_length_mismatch (s : ArcSchema) (record : List Value)
    (h : record.length ≠ s.fields.length) :
    validate_record s record =
      .error ("Length of record does not match number of parameters " ++
        toString s.fields.length) := by
  unfold validate_record num_parameters
  rw [if_pos h]

/-- Witness for C2: the demo schema rejects the one-element record `[5]`. -/
theorem validate_record_length_mismatch_witness :
    validate_record demoSchema [Value.vInt 5] =
      .error ("Length of record does not match number of parameters " ++
        toString demoSchema.fields.length) :=
  validate_record_length_mismatch demoSchema [Value.vInt 5] (by decide)

/-- C3: on a record of matching length, `validate_record` returns
`(is_valid, errors)` where `errors` is exactly the ordered list of one
entry per failing position (`record_errors`, a `filterMap` over the
positional zip of record and fields, so every field is checked with no
short-circuit and passing positions contribute nothing), and `is_valid` is
true iff that list is empty. -/
theorem validate_record_result_exact (s : ArcSchema) (record : List Value)
    (h : record.length = s.fields.length) :
    validate_record s record =
      .ok ((record_errors s record).isEmpty, record_errors s record) ∧
    ((record_errors s record).isEmpty = true ↔ record_errors s record = []) :=
  ⟨validate_record_eq s record h, List.isEmpty_iff⟩

/-- Witness for C3: the exact-errors result at the demo schema and the
record `[15, 50.0]`. -/
theorem validate_record_result_exact_witness :
    validate_record demoSchema [Value.vInt 15, Value.vFloat 50] =
      .ok ((record_errors demoSchema [Value.vInt 15, Value.vFloat 50]).isEmpty,
        record_errors demoSchema [Value.vInt 15, Value.vFloat 50]) ∧
    ((record_errors demoSchema [Value.vInt 15, Value.vFloat 50]).isEmpty = true ↔
      record_errors demoSchema [Value.vInt 15, Value.vFloat 50] = []) :=
  validate_record_result_exact demoSchema [Value.vInt 15, Value.vFloat 50] rfl

/-- C4: a String-typed field's compiled rule performs no numeric range
comparison: every text value is accepted whatever the field's range, and a
record holding that text value validates against the one-field schema. -/
theorem string_field_rule_ignores_range (f : Field) (hty : f.field_type = ArcType.STRING)
    (s : String) :
    validate_value f (.vStr s) = none ∧
    validate_record ⟨[f]⟩ [.vStr s] = .ok (true, []) := by
  have h1 : validate_value f (.vStr s) = none := by
    unfold validate_value
    rw [hty]
    simp [ArcType.native_type]
  refine ⟨h1, ?_⟩
  rw [validate_record_singleton, h1]

/-- Witness for C4: a String field with range (3, 7) accepts "hello". -/
theorem string_field_rule_ignores_range_witness :
    validate_value ⟨"S", ArcType.STRING, "", [3, 7]⟩ (.vStr "hello") = none ∧
    validate_record ⟨[⟨"S", ArcType.STRING, "", [3, 7]⟩]⟩ [.vStr "hello"] =
      .ok (true, []) :=
  string_field_rule_ignores_range ⟨"S", ArcType.STRING, "", [3, 7]⟩ rfl "hello"

/-- C5: field construction succeeds on every two-element range with
`low < high`, fails with the invalid-range error (carrying both bounds)
whenever `low >= high`, and every constructed field has `low < high`. -/
theorem field_range_construction (name : String) (ty : ArcType) (unit : String) :
    (∀ low high : ℚ,
      (low < high →
        mkField name ty unit [low, high] = .ok ⟨name, ty, unit, [low, high]⟩) ∧
      (low ≥ high →
        mkField name ty unit [low, high] = .error (.invalidRange low high))) ∧
    (∀ (range : List ℚ) (f : Field), mkField name ty unit range = .ok f →
      f.low < f.high) := by
  refine ⟨fun low high => ⟨fun hlt => ?_, fun hge => ?_⟩, fun range f hok => ?_⟩
  · simp [mkField]
    exact hlt
  · simp [mkField]
    exact hge
  · unfold mkField at hok
    by_cases h2 : range.length ≠ 2
    · rw [if_pos h2] at hok
      exact absurd hok (by simp)
    · rw [if_neg h2] at hok
      by_cases hge : range.getD 0 0 ≥ range.getD 1 0
      · rw [if_pos hge] at hok
        exact absurd hok (by simp)
      · rw [if_neg hge] at hok
        injection hok with hf
        subst hf
        simpa [Field.low, Field.high] using not_le.mp hge

/-- Witness for C5: range (0, 10) constructs, range (10, 10) is rejected
with both bounds reported. -/
theorem field_range_construction_witness :
    mkField "a" ArcType.INT "" [0, 10] = .ok ⟨"a", ArcType.INT, "", [0, 10]⟩ ∧
    mkField "a" ArcType.INT "" [10, 10] = .error (.invalidRange 10 10) :=
  ⟨((field_range_construction "a" ArcType.INT "").1 0 10).1 (by norm_num),
   ((field_range_construction "a" ArcType.INT "").1 10 10).2 (le_refl 10)⟩

/-- C8: `validate_record` is deterministic and a pure function of the
schema's fields and the record: any two invocations on equal fields and
equal records return identical results (the embedding is stateless, so no
invocation can change the schema's fields). -/
theorem validate_record_deterministic (s₁ s₂ : ArcSchema) (r₁ r₂ : List Value)
    (hs : s₁.fields = s₂.fields) (hr : r₁ = r₂) :
    validate_record s₁ r₁ = validate_record s₂ r₂ := by
  cases s₁
  cases s₂
  cases hs
  cases hr
  rfl

/-- Witness for C8: two invocations on the demo schema and `[5, 50.0]`
agree. -/
theorem validate_record_deterministic_witness :
    validate_record demoSchema [Value.vInt 5, Value.vFloat 50] =
      validate_record demoSchema [Value.vInt 5, Value.vFloat 50] :=
  validate_record_deterministic demoSchema demoSchema
    [Value.vInt 5, Value.vFloat 50] [Value.vInt 5, Value.vFloat 50] rfl rfl

/-- C9: field construction rejects every range whose length is not exactly
two (with the pydantic length error), and the `low < high` check is only
ever reached on two-element ranges: both a successful construction and an
invalid-range error imply the range had length two. -/
theorem field_range_length_two (name : String) (ty : ArcType) (unit : String)
    (range : List ℚ) :
    (range.length ≠ 2 →
      mkField name ty unit range = .error (.badLength range.length)) ∧
    (∀ f, mkField name ty unit range = .ok f → range.length = 2) ∧
    (∀ low high, mkField name ty unit range = .error (.invalidRange low high) →
      range.length = 2) := by
  refine ⟨fun h2 => ?_, fun f hok => ?_, fun low high herr => ?_⟩
  · unfold mkField
    rw [if_pos h2]
  · by_contra h2
    unfold mkField at hok
    rw [if_pos h2] at hok
    exact absurd hok (by simp)
  · by_contra h2
    unfold mkField at herr
    rw [if_pos h2] at herr
    simp at herr

/-- Witness for C9: a three-element range is rejected for its length. -/
theorem field_range_length_two_witness :
    mkField "a" ArcType.INT "" [0, 1, 2] =
      .error (.badLength ([0, 1, 2] : List ℚ).length) :=
  (field_range_length_two "a" ArcType.INT "" [0, 1, 2]).1 (by decide)

/-- C1: for a numeric field, once the raw value coerces, the rule accepts
exactly the inclusive range: values equal to either bound validate (and the
one-field record passes), values strictly below `low` or strictly above
`high` produce an error entry for that field. -/
theorem numeric_range_inclusive (f : Field) (v : Value) (c : ℚ)
    (hty : f.field_type ≠ ArcType.STRING) (hc : coerced_value f v = .ok c)
    (hlh : f.low < f.high) :
    ((c = f.low ∨ c = f.high) →
      validate_value f v = none ∧ validate_record ⟨[f]⟩ [v] = .ok (true, [])) ∧
    (f.low ≤ c → c ≤ f.high →
      validate_value f v = none ∧ validate_record ⟨[f]⟩ [v] = .ok (true, [])) ∧
    (c < f.low →
      validate_value f v = some (ge_message f.low) ∧
      validate_record ⟨[f]⟩ [v] = .ok (false, [(ge_message f.low, model_name f)])) ∧
    (f.high < c →
      validate_value f v = some (le_message f.high) ∧
      validate_record ⟨[f]⟩ [v] = .ok (false, [(le_message f.high, model_name f)])) := by
  have hkey := validate_value_eq_range_check f v c hty hc
  have accept : f.low ≤ c → c ≤ f.high →
      validate_value f v = none ∧ validate_record ⟨[f]⟩ [v] = .ok (true, []) := by
    intro h1 h2
    have hvv : validate_value f v = none := by
      rw [hkey]
      unfold range_check
      rw [if_neg (not_lt.mpr h1), if_neg (not_lt.mpr h2)]
    exact ⟨hvv, by rw [validate_record_singleton, hvv]⟩
  refine ⟨?_, accept, ?_, ?_⟩
  · rintro (rfl | rfl)
    · exact accept le_rfl (le_of_lt hlh)
    · exact accept (le_of_lt hlh) le_rfl
  · intro hlt
    have hvv : validate_value f v = some (ge_message f.low) := by
      rw [hkey]
      unfold range_check
      rw [if_pos hlt]
    exact ⟨hvv, by rw [validate_record_singleton, hvv]⟩
  · intro hgt
    have hvv : validate_value f v = some (le_message f.high) := by
      rw [hkey]
      unfold range_check
      rw [if_neg (not_lt.mpr (le_of_lt (lt_trans hlh hgt))), if_pos hgt]
    exact ⟨hvv, by rw [validate_record_singleton, hvv]⟩

/-- Witness for C1: the STEP field accepts exactly its upper bound 10 and
rejects 15 with the upper-bound message. -/
theorem numeric_range_inclusive_witness :
    (validate_value stepField (Value.vInt 10) = none ∧
      validate_record ⟨[stepField]⟩ [Value.vInt 10] = .ok (true, [])) ∧
    (validate_value stepField (Value.vInt 15) = some (le_message stepField.high) ∧
      validate_record ⟨[stepField]⟩ [Value.vInt 15] =
        .ok (false, [(le_message stepField.high, model_name stepField)])) :=
  ⟨(numeric_range_inclusive stepField (Value.vInt 10) 10 (by decide) rfl
      (by decide)).1 (Or.inr (by decide)),
   (numeric_range_inclusive stepField (Value.vInt 15) 15 (by decide) rfl
      (by decide)).2.2.2 (by decide)⟩

/-- C6 counterexample: validating `[15, 50.0]` against the demo schema
reports the failing field as `"parameter_STEP"` (the generated model name),
which is not the bare field name `"STEP"` the claim states. -/
theorem error_identifier_counterexample :
    validate_record demoSchema [Value.vInt 15, Value.vFloat 50] =
      .ok (false, [(le_message 10, "parameter_STEP")]) ∧
    "parameter_STEP" ≠ "STEP" := by
  exact ⟨rfl, by decide⟩

/-- C6 amended: each error entry identifies the failing field by the
generated model name `"parameter_" ++ field_name` (in field order, one per
failing position); in particular `[15, 50.0]` yields the identifier
`"parameter_STEP"`. -/
theorem error_identifier_is_model_name :
    (∀ (s : ArcSchema) (record : List Value) (b : Bool)
      (errs : List (String × String)),
      validate_record s record = .ok (b, errs) →
      errs.map Prod.snd =
        ((record.zip s.fields).filter fun p => (validate_value p.2 p.1).isSome).map
          fun p => model_name p.2) ∧
    validate_record demoSchema [Value.vInt 15, Value.vFloat 50] =
      .ok (false, [(le_message 10, "parameter_" ++ stepField.field_name)]) := by
  constructor
  · intro s record b errs hok
    unfold validate_record at hok
    by_cases hlen : record.length ≠ num_parameters s
    · rw [if_pos hlen] at hok
      exact absurd hok (by simp)
    · rw [if_neg hlen] at hok
      simp only [foldl_validation_step, List.nil_append] at hok
      by_cases hpos : (pair_errors (record.zip s.fields)).length > 0
      · rw [if_pos hpos] at hok
        simp only [Except.ok.injEq, Prod.mk.injEq] at hok
        obtain ⟨hb, herrs⟩ := hok
        rw [← herrs]
        exact map_snd_pair_errors (record.zip s.fields)
      · rw [if_neg hpos] at hok
        simp only [Except.ok.injEq, Prod.mk.injEq] at hok
        obtain ⟨hb, herrs⟩ := hok
        have h0 : pair_errors (record.zip s.fields) = [] := by
          cases hE : pair_errors (record.zip s.fields) with
          | nil => rfl
          | cons a l => rw [hE] at hpos; simp at hpos
        rw [← herrs]
        simpa [h0] using map_snd_pair_errors (record.zip s.fields)
  · rfl

/-- Witness for C6's amended theorem: the identifier list of the `[15,
50.0]` validation is the model name of the failing STEP field. -/
theorem error_identifier_is_model_name_witness :
    [(le_message 10, "parameter_" ++ stepField.field_name)].map Prod.snd =
      ((([Value.vInt 15, Value.vFloat 50]).zip demoSchema.fields).filter fun p =>
        (validate_value p.2 p.1).isSome).map fun p => model_name p.2 :=
  error_identifier_is_model_name.1 demoSchema [Value.vInt 15, Value.vFloat 50]
    false [(le_message 10, "parameter_" ++ stepField.field_name)]
    error_identifier_is_model_name.2

/-- C7: a coercion failure at one field is non-fatal: the rule reports it
as that field's error entry, `validate_record` still returns a result pair
(no exception beyond the length check), and every other field — before and
after the failing one — is still checked, its errors all collected. -/
theorem coercion_failure_nonfatal (f₁ f₂ : List Field) (r₁ r₂ : List Value)
    (f : Field) (v : Value) (m : String)
    (h₁ : r₁.length = f₁.length) (h₂ : r₂.length = f₂.length)
    (hty : f.field_type ≠ ArcType.STRING) (hc : coerced_value f v = .error m) :
    validate_value f v = some m ∧
    validate_record ⟨f₁ ++ f :: f₂⟩ (r₁ ++ v :: r₂) =
      .ok (false, pair_errors (r₁.zip f₁) ++
        (m, model_name f) :: pair_errors (r₂.zip f₂)) := by
  have hvv := validate_value_of_coerce_error f v m hty hc
  have hlen : (r₁ ++ v :: r₂).length = (⟨f₁ ++ f :: f₂⟩ : ArcSchema).fields.length := by
    simp [h₁, h₂]
  have heq := validate_record_eq ⟨f₁ ++ f :: f₂⟩ (r₁ ++ v :: r₂) hlen
  have hzip : (r₁ ++ v :: r₂).zip (f₁ ++ f :: f₂) =
      r₁.zip f₁ ++ (v, f) :: r₂.zip f₂ := by
    rw [List.zip_append h₁]
    rfl
  have herr : record_errors ⟨f₁ ++ f :: f₂⟩ (r₁ ++ v :: r₂) =
      pair_errors (r₁.zip f₁) ++ (m, model_name f) :: pair_errors (r₂.zip f₂) := by
    show pair_errors ((r₁ ++ v :: r₂).zip (f₁ ++ f :: f₂)) = _
    rw [hzip]
    unfold pair_errors
    rw [List.filterMap_append]
    simp [List.filterMap_cons, hvv]
  refine ⟨hvv, ?_⟩
  rw [heq, herr]
  simp

/-- Witness for C7: the text "x" fails integer coercion at STEP; HEIGHT is
still checked and the record yields exactly the STEP entry. -/
theorem coercion_failure_nonfatal_witness :
    validate_value stepField (Value.vStr "x") =
      some "Input should be a valid integer, unable to parse string as an integer" ∧
    validate_record demoSchema [Value.vStr "x", Value.vFloat 50] =
      .ok (false, pair_errors (([] : List Value).zip ([] : List Field)) ++
        ("Input should be a valid integer, unable to parse string as an integer",
          model_name stepField) :: pair_errors ([Value.vFloat 50].zip [heightField])) :=
  coercion_failure_nonfatal [] [heightField] [] [Value.vFloat 50] stepField
    (Value.vStr "x")
    "Input should be a valid integer, unable to parse string as an integer"
    rfl rfl (by decide) rfl

/-- C10: coercion is lenient rather than type-strict: a text value that
parses as a number is coerced and accepted whenever the coerced value lies
in the field's inclusive range — for Int fields via integer parsing, for
float-represented fields (Double, Float) via decimal parsing. -/
theorem lenient_numeric_string_coercion :
    (∀ (f : Field) (s : String) (n : ℤ), f.field_type = ArcType.INT →
      str_as_int s = some n → f.low ≤ (n : ℚ) → (n : ℚ) ≤ f.high →
      validate_value f (.vStr s) = none ∧
      validate_record ⟨[f]⟩ [.vStr s] = .ok (true, [])) ∧
    (∀ (f : Field) (s : String) (q : ℚ),
      f.field_type.native_type = NativeKind.floatK →
      str_as_float s = some q → f.low ≤ q → q ≤ f.high →
      validate_value f (.vStr s) = none ∧
      validate_record ⟨[f]⟩ [.vStr s] = .ok (true, [])) := by
  constructor
  · intro f s n hty hp hlo hhi
    have hne : f.field_type ≠ ArcType.STRING := by rw [hty]; decide
    have hci : coerce_int (Value.vStr s) = .ok n := by simp [coerce_int, hp]
    have hcv : coerced_value f (.vStr s) = .ok ((n : ℤ) : ℚ) := by
      unfold coerced_value
      rw [hty]
      simp [ArcType.native_type, hci, Except.map]
    have hkey := validate_value_eq_range_check f (.vStr s) ((n : ℤ) : ℚ) hne hcv
    have hvv : validate_value f (.vStr s) = none := by
      rw [hkey]
      unfold range_check
      rw [if_neg (not_lt.mpr hlo), if_neg (not_lt.mpr hhi)]
    exact ⟨hvv, by rw [validate_record_singleton, hvv]⟩
  · intro f s q htyk hp hlo hhi
    have hne : f.field_type ≠ ArcType.STRING := by
      intro h
      rw [h] at htyk
      exact absurd htyk (by decide)
    have hcf : coerce_float (Value.vStr s) = .ok q := by simp [coerce_float, hp]
    have hcv : coerced_value f (.vStr s) = .ok q := by
      unfold coerced_value
      rw [htyk]
      exact hcf
    have hkey := validate_value_eq_range_check f (.vStr s) q hne hcv
    have hvv : validate_value f (.vStr s) = none := by
      rw [hkey]
      unfold range_check
      rw [if_neg (not_lt.mpr hlo), if_neg (not_lt.mpr hhi)]
    exact ⟨hvv, by rw [validate_record_singleton, hvv]⟩

/-- Witness for C10: the text "5" passes STEP (Int, range (0,10)) and the
text "50.25" passes HEIGHT (Double, range (0,100)). -/
theorem lenient_numeric_string_coercion_witness :
    (validate_value stepField (Value.vStr "5") = none ∧
      validate_record ⟨[stepField]⟩ [Value.vStr "5"] = .ok (true, [])) ∧
    (validate_value heightField (Value.vStr "50.25") = none ∧
      validate_record ⟨[heightField]⟩ [Value.vStr "50.25"] = .ok (true, [])) :=
  ⟨lenient_numeric_string_coercion.1 stepField "5" 5 rfl (by decide)
      (by decide) (by decide),
   lenient_numeric_string_coercion.2 heightField "50.25" (mkRat 201 4) rfl
      (by decide) (by decide) (by decide)⟩

end MorphoTyping
